import Mathlib

/-!
Verification of the emissions dashboard core: the dataset normalizer
(`data_fetcher.py`, `process_country_data` / `get_all_countries_data`) and the
snapshot projector (`globe_visualizer.py`, `GlobeVisualizer.__init__` /
`create_globe`).

Modelling conventions:
* Python floats are modelled as exact rationals (`ℚ`); all operations the code
  performs on them (comparisons, max/min, linear interpolation) are exact.
* JSON dictionaries are modelled as association lists in document order;
  JSON guarantees the string keys of one object are pairwise distinct.
* Code that raises an exception is modelled with `Option`, `none` standing for
  the raised exception.
-/

attribute [local semireducible] Rat.mul Rat.inv Rat.add Rat.sub

/-- A JSON value as found in the raw OWID `co2` mapping.  Arrays and objects
are collapsed to content-free constructors: the Python code never looks inside
them (they fail the `isinstance(value, (int, float))` test). -/
inductive JVal
  | jnull
  | jnum (q : ℚ)
  | jstr (s : String)
  | jbool (b : Bool)
  | jarr
  | jobj
  deriving DecidableEq

/-- `value is not None and isinstance(value, (int, float))` followed by
`float(value)` (data_fetcher.py lines 117-119).  Python `bool` is a subclass of
`int`, so JSON booleans pass the test and convert to 1.0 / 0.0. -/
def numericValue : JVal → Option ℚ
  | .jnum q => some q
  | .jbool b => some (if b then 1 else 0)
  | _ => none

/-- ASCII whitespace stripped by Python `int(str)` before parsing
(the characters of `' \t\n\r\x0b\x0c'`). -/
def isPySpace (c : Char) : Bool :=
  c = ' ' || c = '\t' || c = '\n' || c = '\r' || c = '\x0b' || c = '\x0c'

/-- Strip leading and trailing whitespace, as Python `int(str)` does. -/
def stripChars (l : List Char) : List Char :=
  ((l.dropWhile isPySpace).reverse.dropWhile isPySpace).reverse

def digitVal (c : Char) : ℕ := c.toNat - 48

/-- Digit tail of a Python integer literal: digits with single underscores
allowed only between digits.  The flag records whether the previous character
was an underscore (which must be followed by a digit). -/
def pyDigits : Bool → ℕ → List Char → Option ℕ
  | false, acc, [] => some acc
  | true, _, [] => none
  | lastU, acc, c :: cs =>
    if c.isDigit then pyDigits false (10 * acc + digitVal c) cs
    else if c = '_' && !lastU then pyDigits true acc cs
    else none

/-- A Python integer literal body must start with a digit. -/
def pyNatStart : List Char → Option ℕ
  | [] => none
  | c :: cs => if c.isDigit then pyDigits false (digitVal c) cs else none

/-- Optional single sign followed by digits. -/
def pyIntCore : List Char → Option ℤ
  | [] => none
  | c :: cs =>
    if c = '+' then (pyNatStart cs).map (fun n => (n : ℤ))
    else if c = '-' then (pyNatStart cs).map (fun n => -(n : ℤ))
    else (pyNatStart (c :: cs)).map (fun n => (n : ℤ))

/-- Model of Python `int(year_str)` for ASCII strings (data_fetcher.py line
116): surrounding whitespace is ignored, one optional sign, then decimal
digits with optional single underscores between digits; `none` models the
`ValueError` caught at line 120.  Note that distinct dictionary keys can parse
to the same integer (e.g. `"2018"` and `" 2018"`). -/
def pyInt (s : String) : Option ℤ :=
  pyIntCore (stripChars s.data)

/-- The loop of data_fetcher.py lines 114-121: keep the `(year, value)` pairs
whose key parses as an int and whose value is numeric, in dictionary order. -/
def validOf (items : List (String × JVal)) : List (ℤ × ℚ) :=
  items.filterMap fun kv =>
    match pyInt kv.1, numericValue kv.2 with
    | some y, some v => some (y, v)
    | _, _ => none

/-- One raw OWID entry: optional display name (`'country'` key) and the
optional `'co2'` year→value mapping. -/
structure RawCountry where
  country : Option String
  co2 : Option (List (String × JVal))
  deriving DecidableEq

/-- The valid `(year, value)` pairs of a raw record; empty when the `'co2'`
key is missing (the line-106 early return) or when every entry is filtered
out (the line-123 early return). -/
def validPairs (cd : RawCountry) : List (ℤ × ℚ) :=
  match cd.co2 with
  | none => []
  | some items => validOf items

/-- Comparison key of `df.sort_values('year')` (data_fetcher.py line 128). -/
def byYear (a b : ℤ × ℚ) : Prop := a.1 ≤ b.1

instance : DecidableRel byYear := fun a b => inferInstanceAs (Decidable (a.1 ≤ b.1))

instance : IsTotal (ℤ × ℚ) byYear := ⟨fun a b => Int.le_total a.1 b.1⟩

instance : IsTrans (ℤ × ℚ) byYear := ⟨fun _ _ _ h h2 => le_trans h h2⟩

/-- `df.sort_values('year')`: sort the (year, value) rows by year.  (The
source uses pandas quicksort, whose order among equal years is unspecified;
the spec declares duplicate years undefined behaviour.) -/
def sortPairs (l : List (ℤ × ℚ)) : List (ℤ × ℚ) :=
  List.insertionSort byYear l

/-- `max` over a list of years; Python `Series.max()` — the default 0 is never
used on the nonempty lists the code applies it to. -/
def maxZ : List ℤ → ℤ
  | [] => 0
  | x :: xs => xs.foldl max x

/-- `max` over a list of rationals (`Series.max()` / `np.nanmax` / built-in
`max`); the default 0 is never used on the nonempty lists the code applies it
to. -/
def maxQ : List ℚ → ℚ
  | [] => 0
  | x :: xs => xs.foldl max x

/-- `min` over a list of rationals (`Series.min()`). -/
def minQ : List ℚ → ℚ
  | [] => 0
  | x :: xs => xs.foldl min x

/-- `df[df['year'] == latest_year]['emissions'].values[0]` (line 132): the
value of the first sorted row carrying the given year.  The fallback 0 is
unreachable: the latest year always occurs in the list. -/
def firstEmissionAt (l : List (ℤ × ℚ)) (y : ℤ) : ℚ :=
  match l.find? (fun p => p.1 == y) with
  | some p => p.2
  | none => 0

/-- The processed per-country record returned by `process_country_data`
(data_fetcher.py lines 141-151), with the source's field names. -/
structure ProcessedCountry where
  country_code : String
  country_name : String
  years : List ℤ
  emissions : List ℚ
  latest_year : ℤ
  latest_emission : ℚ
  trend : String
  max_emission : ℚ
  min_emission : ℚ
  deriving DecidableEq

/-- Lines 126-151 of data_fetcher.py, applied once the pair list is known to
be nonempty: sort by year, derive latest year/value, the trailing-window trend
(`recent_years = df[df['year'] >= latest_year - 5]`, compare `iloc[-1]` with
`iloc[0]` when more than one row survives), and the series extrema. -/
def buildRec (code : String) (cd : RawCountry) (pairs : List (ℤ × ℚ)) : ProcessedCountry :=
  let sorted := sortPairs pairs
  let latestYear := maxZ (sorted.map Prod.fst)
  let latestEmission := firstEmissionAt sorted latestYear
  let recent := sorted.filter fun p => decide (latestYear - 5 ≤ p.1)
  let trend :=
    if 1 < recent.length then
      if (recent.getLastD (0, 0)).2 > (recent.headD (0, 0)).2 then "increasing" else "decreasing"
    else "stable"
  { country_code := code
    country_name := cd.country.getD code
    years := sorted.map Prod.fst
    emissions := sorted.map Prod.snd
    latest_year := latestYear
    latest_emission := latestEmission
    trend := trend
    max_emission := maxQ (sorted.map Prod.snd)
    min_emission := minQ (sorted.map Prod.snd) }

/-- `process_country_data` (data_fetcher.py lines 104-151): `None` when the
`'co2'` key is absent or no valid pair survives filtering, otherwise the
processed record. -/
def processCountryData (code : String) (cd : RawCountry) : Option ProcessedCountry :=
  match cd.co2 with
  | none => none
  | some items =>
    let pairs := validOf items
    if pairs.isEmpty then none
    else some (buildRec code cd pairs)

/-- The fixed aggregate-region exclusion list (data_fetcher.py lines 171-172). -/
def aggregateExclusions : List String :=
  ["OWID_WRL", "OWID_EUR", "OWID_ASI", "OWID_AFR",
   "OWID_NAM", "OWID_SAM", "OWID_OCE", "OWID_KOS"]

/-- `get_all_countries_data` (data_fetcher.py lines 166-177), on an in-memory
raw dataset (the fetch/cache plumbing is out of scope): skip aggregate codes,
process each remaining country, and keep the successful results keyed by
country code in input order. -/
def getAllCountriesData (raw : List (String × RawCountry)) : List (String × ProcessedCountry) :=
  raw.filterMap fun entry =>
    if entry.1 ∈ aggregateExclusions then none
    else (processCountryData entry.1 entry.2).map fun r => (entry.1, r)

/-- `GlobeVisualizer` state after `__init__`: the table and
`self.current_year` (the `country_codes_map` of globe_visualizer.py maps every
key of its `owid_to_iso3` table to itself, so it reduces to stripping the
`OWID_` prefix and carries no extra state). -/
structure GlobeState where
  emissions_data : List (String × ProcessedCountry)
  current_year : ℤ
  deriving DecidableEq

/-- `GlobeVisualizer.__init__` (globe_visualizer.py lines 16-19):
`max([data['latest_year'] ...])` raises `ValueError` on an empty table,
modelled by `none`. -/
def globeVisualizerInit (emissionsData : List (String × ProcessedCountry)) : Option GlobeState :=
  match emissionsData with
  | [] => none
  | _ :: _ =>
    some { emissions_data := emissionsData
           current_year := maxZ (emissionsData.map fun p => p.2.latest_year) }

/-- Per-region value of a frame (globe_visualizer.py lines 110-116): the value
at the first index of `year` in `years` when present, otherwise
`latest_emission`.  The `getD` default 0 is unreachable: the two lists of a
processed record have equal length. -/
def frameValue (d : ProcessedCountry) (year : ℤ) : ℚ :=
  if year ∈ d.years then d.emissions.getD (d.years.indexOf year) 0
  else d.latest_emission

/-- The `emission_values` list of `create_globe` (lines 109-123), in table
order. -/
def frameValues (table : List (String × ProcessedCountry)) (year : ℤ) : List ℚ :=
  table.map fun p => frameValue p.2 year

/-- `max_emission` of `create_globe` line 107: max of the latest emissions. -/
def tableMaxEmission (table : List (String × ProcessedCountry)) : ℚ :=
  maxQ (table.map fun p => p.2.latest_emission)

/-- `np.nanpercentile(arr, q)` with the default linear interpolation, on a
NaN-free array: sort ascending, index `q/100 * (n-1)`, interpolate linearly
between the neighbouring order statistics. -/
def percentile (l : List ℚ) (q : ℚ) : ℚ :=
  let s := List.insertionSort (fun a b : ℚ => a ≤ b) l
  let n := s.length
  let pos : ℚ := q * ((n : ℚ) - 1) / 100
  let i : ℕ := (⌊pos⌋).toNat
  let lo := s.getD i 0
  let hi := s.getD (i + 1) lo
  lo + (pos - (i : ℚ)) * (hi - lo)

/-- Default colour-domain minimum (line 130/133): `max(0.0, percentile_5)`,
with the line-127 guard `if emission_array.size else 0.0`. -/
def defaultZmin (vals : List ℚ) : ℚ :=
  max 0 (if vals.isEmpty then 0 else percentile vals 5)

/-- Default colour-domain maximum (line 131/134): the 95th percentile when it
is positive, otherwise `np.nanmax` of the frame values. -/
def defaultZmax (vals : List ℚ) : ℚ :=
  let p95 := if vals.isEmpty then 0 else percentile vals 95
  if 0 < p95 then p95 else maxQ vals

/-- Lines 135-136: `if np.isnan(zmax) or zmax <= 0`, replace `zmax` by
`max_emission` when positive, else 1.0.  NaN is not representable in ℚ, so
only the sign test remains. -/
def fixZmax (m maxEm : ℚ) : ℚ :=
  if m ≤ 0 then (if 0 < maxEm then maxEm else 1) else m

/-- The caller's `color_range["min"]` when supplied.  `none` stands for a
missing or falsy `color_range` dict. -/
def ovMin (cr : Option (Option ℚ × Option ℚ)) : Option ℚ :=
  (cr.getD (none, none)).1

/-- The caller's `color_range["max"]` when supplied. -/
def ovMax (cr : Option (Option ℚ × Option ℚ)) : Option ℚ :=
  (cr.getD (none, none)).2

/-- Lines 129-138 of globe_visualizer.py: resolve `(zmin, zmax)`.  A truthy
`color_range` dict takes each bound from the dict with the computed value as
`dict.get` default; a missing (or falsy, hence key-less) dict uses the
computed values directly — the two arms coincide exactly as in the source.
Then the non-positive-`zmax` repair and the degenerate-scale reset of `zmin`. -/
def resolveDomain (vals : List ℚ) (maxEm : ℚ)
    (colorRange : Option (Option ℚ × Option ℚ)) : ℚ × ℚ :=
  let zminA := match colorRange with
    | some cr => cr.1.getD (defaultZmin vals)
    | none => defaultZmin vals
  let zmaxA := match colorRange with
    | some cr => cr.2.getD (defaultZmax vals)
    | none => defaultZmax vals
  let zmaxB := fixZmax zmaxA maxEm
  (if zmaxB ≤ zminA then 0 else zminA, zmaxB)

/-- Left-to-right, non-overlapping replacement of a (nonempty) pattern, on
character lists; the fuel argument (instantiated with the string length) only
makes the recursion structural and never runs out. -/
def replaceFuel (pat rep : List Char) : ℕ → List Char → List Char
  | _, [] => []
  | 0, s => s
  | fuel + 1, c :: cs =>
    if pat.isPrefixOf (c :: cs) then rep ++ replaceFuel pat rep fuel ((c :: cs).drop pat.length)
    else c :: replaceFuel pat rep fuel cs

/-- Model of Python `s.replace(pat, rep)` for a nonempty pattern
(`code.replace('OWID_', '')`, globe_visualizer.py lines 64 and 120). -/
def pyReplace (s pat rep : String) : String :=
  ⟨replaceFuel pat.data rep.data s.data.length s.data⟩

/-- The render-ready data `create_globe` feeds the choropleth trace: locations,
values, hover names, the resolved colour domain and the echoed rotation. -/
structure RenderFrame where
  year : ℤ
  codes : List String
  values : List ℚ
  names : List String
  zmin : ℚ
  zmax : ℚ
  rotLon : ℚ
  rotLat : ℚ
  deriving DecidableEq

/-- `create_globe` (globe_visualizer.py lines 90-199), up to the data handed
to the rendering backend.  `currentYear` is `self.current_year`; an empty
table makes the line-107 `max` raise (`none`).  The ISO-3 location of a region
is its code with the `OWID_` prefix removed (see `GlobeState`). -/
def createGlobe (table : List (String × ProcessedCountry)) (currentYear : ℤ)
    (year? : Option ℤ) (rotation? : Option (ℚ × ℚ))
    (colorRange : Option (Option ℚ × Option ℚ)) : Option RenderFrame :=
  match table with
  | [] => none
  | _ :: _ =>
    let year := year?.getD currentYear
    let rot := rotation?.getD (0, 0)
    let vals := frameValues table year
    let dom := resolveDomain vals (tableMaxEmission table) colorRange
    some { year := year
           codes := table.map fun p => pyReplace p.1 "OWID_" ""
           values := vals
           names := table.map fun p => p.2.country_name
           zmin := dom.1
           zmax := dom.2
           rotLon := rot.1
           rotLat := rot.2 }

/-! ### Concrete fixtures -/

/-- The spec's USA scenario input. -/
def usaRaw : RawCountry :=
  { country := some "United States"
    co2 := some [("2018", .jnum 100), ("2019", .jnum 90), ("2020", .jnum 80)] }

/-- The record the normalizer produces for `usaRaw`. -/
def usaRecord : ProcessedCountry :=
  { country_code := "USA"
    country_name := "United States"
    years := [2018, 2019, 2020]
    emissions := [100, 90, 80]
    latest_year := 2020
    latest_emission := 80
    trend := "decreasing"
    max_emission := 100
    min_emission := 80 }

/-- A region whose trend window has two points with equal values. -/
def eqRaw : RawCountry :=
  { country := some "Equaland"
    co2 := some [("2019", .jnum 5), ("2020", .jnum 5)] }

/-- The record the normalizer produces for `eqRaw`. -/
def eqRecord : ProcessedCountry :=
  { country_code := "EQL"
    country_name := "Equaland"
    years := [2019, 2020]
    emissions := [5, 5]
    latest_year := 2020
    latest_emission := 5
    trend := "decreasing"
    max_emission := 5
    min_emission := 5 }

/-- A raw record with two distinct dictionary keys parsing to the same year:
Python `int(" 2018") == int("2018") == 2018`. -/
def dupRaw : RawCountry :=
  { country := some "Dupland"
    co2 := some [("2018", .jnum 1), (" 2018", .jnum 2)] }

/-- A region present in the raw input with an empty metric mapping. -/
def emptyRaw : RawCountry :=
  { country := some "Emptyland"
    co2 := some [] }

/-- A one-region normalized table used to exercise the projector. -/
def usaTable : List (String × ProcessedCountry) := [("USA", usaRecord)]

/-- The frame the projector produces for `usaTable` at year 2020 with no
overrides: the single value 80 collapses the percentile domain, so the
degenerate-scale reset forces `zmin` to 0. -/
def usaFrame : RenderFrame :=
  { year := 2020, codes := ["USA"], values := [80], names := ["United States"],
    zmin := 0, zmax := 80, rotLon := 0, rotLat := 0 }

/-- The frame for `usaTable` at year 2020 with caller overrides
`min := 3, max := 2`: the override collapses the scale, so `zmin` resets to 0
while the overriding `zmax` is kept. -/
def overrideFrame : RenderFrame :=
  { year := 2020, codes := ["USA"], values := [80], names := ["United States"],
    zmin := 0, zmax := 2, rotLon := 0, rotLat := 0 }

/-! ### Helper lemmas -/

lemma foldl_max_mem {α : Type} [LinearOrder α] :
    ∀ (xs : List α) (a : α), xs.foldl max a = a ∨ xs.foldl max a ∈ xs := by
  intro xs
  induction xs with
  | nil => intro a; left; rfl
  | cons y ys ih =>
    intro a
    rcases ih (max a y) with h | h
    · rcases max_choice a y with hm | hm
      · left; rw [List.foldl_cons, h, hm]
      · right; rw [List.foldl_cons, h, hm]; exact List.mem_cons_self _ _
    · right; exact List.mem_cons_of_mem _ h

lemma le_foldl_max {α : Type} [LinearOrder α] :
    ∀ (xs : List α) (a : α), a ≤ xs.foldl max a ∧ ∀ x ∈ xs, x ≤ xs.foldl max a := by
  intro xs
  induction xs with
  | nil => intro a; exact ⟨le_refl a, by simp⟩
  | cons y ys ih =>
    intro a
    obtain ⟨h1, h2⟩ := ih (max a y)
    refine ⟨le_trans (le_max_left a y) h1, ?_⟩
    intro x hx
    rcases List.mem_cons.mp hx with rfl | hx
    · exact le_trans (le_max_right a x) h1
    · exact h2 x hx

lemma foldl_min_mem {α : Type} [LinearOrder α] :
    ∀ (xs : List α) (a : α), xs.foldl min a = a ∨ xs.foldl min a ∈ xs := by
  intro xs
  induction xs with
  | nil => intro a; left; rfl
  | cons y ys ih =>
    intro a
    rcases ih (min a y) with h | h
    · rcases min_choice a y with hm | hm
      · left; rw [List.foldl_cons, h, hm]
      · right; rw [List.foldl_cons, h, hm]; exact List.mem_cons_self _ _
    · right; exact List.mem_cons_of_mem _ h

lemma foldl_min_le {α : Type} [LinearOrder α] :
    ∀ (xs : List α) (a : α), xs.foldl min a ≤ a ∧ ∀ x ∈ xs, xs.foldl min a ≤ x := by
  intro xs
  induction xs with
  | nil => intro a; exact ⟨le_refl a, by simp⟩
  | cons y ys ih =>
    intro a
    obtain ⟨h1, h2⟩ := ih (min a y)
    refine ⟨le_trans h1 (min_le_left a y), ?_⟩
    intro x hx
    rcases List.mem_cons.mp hx with rfl | hx
    · exact le_trans h1 (min_le_right a x)
    · exact h2 x hx

lemma maxZ_mem {l : List ℤ} (h : l ≠ []) : maxZ l ∈ l := by
  cases l with
  | nil => exact absurd rfl h
  | cons x xs =>
    rcases foldl_max_mem xs x with h1 | h1
    · rw [maxZ, h1]; exact List.mem_cons_self _ _
    · exact List.mem_cons_of_mem _ h1

lemma le_maxZ {l : List ℤ} {x : ℤ} (h : x ∈ l) : x ≤ maxZ l := by
  cases l with
  | nil => cases h
  | cons y ys =>
    rcases List.mem_cons.mp h with rfl | hx
    · exact (le_foldl_max ys x).1
    · exact (le_foldl_max ys y).2 x hx

lemma le_maxQ {l : List ℚ} {x : ℚ} (h : x ∈ l) : x ≤ maxQ l := by
  cases l with
  | nil => cases h
  | cons y ys =>
    rcases List.mem_cons.mp h with rfl | hx
    · exact (le_foldl_max ys x).1
    · exact (le_foldl_max ys y).2 x hx

lemma minQ_le {l : List ℚ} {x : ℚ} (h : x ∈ l) : minQ l ≤ x := by
  cases l with
  | nil => cases h
  | cons y ys =>
    rcases List.mem_cons.mp h with rfl | hx
    · exact (foldl_min_le ys x).1
    · exact (foldl_min_le ys y).2 x hx

lemma sortPairs_perm (l : List (ℤ × ℚ)) : List.Perm (sortPairs l) l :=
  List.perm_insertionSort byYear l

lemma sortPairs_sorted (l : List (ℤ × ℚ)) : (sortPairs l).Pairwise byYear :=
  List.sorted_insertionSort byYear l

lemma getLastD_mem {α : Type} :
    ∀ (l : List α) (d : α), l ≠ [] → l.getLastD d ∈ l := by
  intro l
  induction l with
  | nil => intro d h; exact absurd rfl h
  | cons a t ih =>
    intro d _
    rw [List.getLastD_cons]
    cases t with
    | nil => simp [List.getLastD]
    | cons b t2 => exact List.mem_cons_of_mem _ (ih a (by simp))

lemma byYear_getLastD :
    ∀ (l : List (ℤ × ℚ)) (d x : ℤ × ℚ), l.Pairwise byYear → x ∈ l → x.1 ≤ (l.getLastD d).1 := by
  intro l
  induction l with
  | nil => intro d x _ hx; cases hx
  | cons a t ih =>
    intro d x hp hx
    rw [List.getLastD_cons]
    rcases List.mem_cons.mp hx with rfl | hx
    · cases t with
      | nil => exact le_refl _
      | cons b t2 =>
        exact (List.pairwise_cons.mp hp).1 _ (getLastD_mem (b :: t2) x (by simp))
    · cases t with
      | nil => cases hx
      | cons b t2 => exact ih a x (List.pairwise_cons.mp hp).2 hx

lemma zip_fst_snd (l : List (ℤ × ℚ)) : (l.map Prod.fst).zip (l.map Prod.snd) = l := by
  rw [List.zip_map']
  simp

lemma processCountryData_eq_some {code : String} {cd : RawCountry} {r : ProcessedCountry} :
    processCountryData code cd = some r ↔
      validPairs cd ≠ [] ∧ r = buildRec code cd (validPairs cd) := by
  rcases cd with ⟨name, co2⟩
  cases co2 with
  | none => simp [processCountryData, validPairs]
  | some items =>
    simp only [processCountryData, validPairs]
    by_cases h : (validOf items).isEmpty
    · simp [h, List.isEmpty_iff.mp h]
    · have h2 : validOf items ≠ [] := fun e => h (by rw [e]; rfl)
      simp [h, h2, eq_comm]

lemma keys_nodup_snd_eq {α β : Type} {l : List (α × β)} (h : (l.map Prod.fst).Nodup)
    {a : α} {b c : β} (h1 : (a, b) ∈ l) (h2 : (a, c) ∈ l) : b = c := by
  induction l with
  | nil => cases h1
  | cons p t ih =>
    simp only [List.map_cons, List.nodup_cons] at h
    rcases List.mem_cons.mp h1 with h1e | h1t
    · rcases List.mem_cons.mp h2 with h2e | h2t
      · rw [← h1e] at h2e
        exact ((Prod.mk.injEq _ _ _ _).mp h2e.symm).2
      · exfalso
        exact (h1e ▸ h.1) (List.mem_map.mpr ⟨(a, c), h2t, rfl⟩)
    · rcases List.mem_cons.mp h2 with h2e | h2t
      · exfalso
        exact (h2e ▸ h.1) (List.mem_map.mpr ⟨(a, b), h1t, rfl⟩)
      · exact ih h.2 h1t h2t

lemma mem_keys_getAll {raw : List (String × RawCountry)} {code : String} :
    code ∈ (getAllCountriesData raw).map Prod.fst →
      code ∉ aggregateExclusions ∧
        ∃ cd r, (code, cd) ∈ raw ∧ processCountryData code cd = some r := by
  intro h
  rcases List.mem_map.mp h with ⟨q, hq, hqc⟩
  rcases List.mem_filterMap.mp hq with ⟨entry, hent, hfe⟩
  by_cases hex : entry.1 ∈ aggregateExclusions
  · rw [if_pos hex] at hfe; cases hfe
  · rw [if_neg hex] at hfe
    rcases Option.map_eq_some'.mp hfe with ⟨r, hr, hqr⟩
    have hc : entry.1 = code := by rw [← hqc, ← hqr]
    subst hc
    refine ⟨hex, entry.2, r, ?_, hr⟩
    simpa using hent

lemma buildRec_years (code : String) (cd : RawCountry) (pairs : List (ℤ × ℚ)) :
    (buildRec code cd pairs).years = (sortPairs pairs).map Prod.fst := rfl

lemma buildRec_emissions (code : String) (cd : RawCountry) (pairs : List (ℤ × ℚ)) :
    (buildRec code cd pairs).emissions = (sortPairs pairs).map Prod.snd := rfl

lemma buildRec_latest_year (code : String) (cd : RawCountry) (pairs : List (ℤ × ℚ)) :
    (buildRec code cd pairs).latest_year = maxZ ((sortPairs pairs).map Prod.fst) := rfl

lemma buildRec_latest_emission (code : String) (cd : RawCountry) (pairs : List (ℤ × ℚ)) :
    (buildRec code cd pairs).latest_emission =
      firstEmissionAt (sortPairs pairs) (maxZ ((sortPairs pairs).map Prod.fst)) := rfl

lemma buildRec_max_emission (code : String) (cd : RawCountry) (pairs : List (ℤ × ℚ)) :
    (buildRec code cd pairs).max_emission = maxQ ((sortPairs pairs).map Prod.snd) := rfl

lemma buildRec_min_emission (code : String) (cd : RawCountry) (pairs : List (ℤ × ℚ)) :
    (buildRec code cd pairs).min_emission = minQ ((sortPairs pairs).map Prod.snd) := rfl

lemma sortPairs_ne_nil {l : List (ℤ × ℚ)} (h : l ≠ []) : sortPairs l ≠ [] := by
  intro e
  apply h
  have hlen := (sortPairs_perm l).length_eq
  rw [e] at hlen
  exact List.length_eq_zero.mp hlen.symm

lemma firstEmissionAt_mem {l : List (ℤ × ℚ)} {y : ℤ} (h : y ∈ l.map Prod.fst) :
    (y, firstEmissionAt l y) ∈ l := by
  rcases List.mem_map.mp h with ⟨p, hp, hfst⟩
  cases hfind : l.find? (fun q => q.1 == y) with
  | none =>
    exact absurd (beq_iff_eq.mpr hfst) (by simpa using List.find?_eq_none.mp hfind p hp)
  | some q =>
    have he : firstEmissionAt l y = q.2 := by unfold firstEmissionAt; rw [hfind]
    have hpq := List.find?_some hfind
    have hq1 : q.1 = y := by simpa using hpq
    have hqmem := List.mem_of_find?_eq_some hfind
    rw [he, ← hq1]
    simpa using hqmem

/-! ### Claims -/

/-- C10: constructing the visualizer over an empty normalized table, or
projecting a frame from an empty table, fails — the `max` over the empty
collection raises `ValueError` (modelled by `none`); the projector implicitly
requires a non-empty table. -/
theorem empty_table_projection_fails :
    globeVisualizerInit [] = none ∧
      ∀ (currentYear : ℤ) (year? : Option ℤ) (rotation? : Option (ℚ × ℚ))
        (colorRange : Option (Option ℚ × Option ℚ)),
        createGlobe [] currentYear year? rotation? colorRange = none :=
  ⟨rfl, fun _ _ _ _ => rfl⟩

/-- C7: no region code of the fixed aggregate-exclusion set ever appears as a
key of the normalizer's output, whatever the raw input holds for it. -/
theorem aggregate_codes_excluded :
    ∀ (raw : List (String × RawCountry)) (code : String),
      code ∈ aggregateExclusions →
        code ∉ (getAllCountriesData raw).map Prod.fst := by
  intro raw code hex hmem
  exact (mem_keys_getAll hmem).1 hex

theorem aggregate_codes_excluded_witness :
    "OWID_WRL" ∉ (getAllCountriesData [("OWID_WRL", usaRaw)]).map Prod.fst :=
  aggregate_codes_excluded [("OWID_WRL", usaRaw)] "OWID_WRL" (by decide)

/-- C9: a region whose (year, value) pairs are empty after filtering —
including an empty or missing metric mapping — is silently dropped from the
normalized output: it is not a key of the result (and the build is a total
function, so no error can abort it). -/
theorem empty_pairs_region_dropped :
    ∀ (raw : List (String × RawCountry)) (code : String) (cd : RawCountry),
      (raw.map Prod.fst).Nodup → (code, cd) ∈ raw → validPairs cd = [] →
        code ∉ (getAllCountriesData raw).map Prod.fst := by
  intro raw code cd hnd hmem hempty hkey
  rcases (mem_keys_getAll hkey).2 with ⟨cd2, r, hmem2, hproc⟩
  have hcd : cd2 = cd := keys_nodup_snd_eq hnd hmem2 hmem
  subst hcd
  exact (processCountryData_eq_some.mp hproc).1 hempty

theorem empty_pairs_region_dropped_witness :
    "EMP" ∉ (getAllCountriesData [("EMP", emptyRaw), ("USA", usaRaw)]).map Prod.fst :=
  empty_pairs_region_dropped [("EMP", emptyRaw), ("USA", usaRaw)] "EMP" emptyRaw
    (by decide) (by decide) (by decide)

/-- C6: derived statistics of a normalized record — `latest_year` is the
maximum year present, `latest_emission` is the value paired with it,
`max_emission`/`min_emission` are the extrema of the full retained series (so
they bound every value) — and the spec's USA scenario produces exactly the
expected record. -/
theorem normalized_record_derived_stats :
    getAllCountriesData [("USA", usaRaw)] = [("USA", usaRecord)] ∧
      ∀ (code : String) (cd : RawCountry) (r : ProcessedCountry),
        processCountryData code cd = some r →
          r.latest_year = maxZ r.years ∧
          (r.latest_year, r.latest_emission) ∈ r.years.zip r.emissions ∧
          r.max_emission = maxQ r.emissions ∧
          r.min_emission = minQ r.emissions ∧
          ∀ v ∈ r.emissions, r.min_emission ≤ v ∧ v ≤ r.max_emission := by
  constructor
  · decide
  · intro code cd r hproc
    obtain ⟨hne, rfl⟩ := processCountryData_eq_some.mp hproc
    have hsne := sortPairs_ne_nil hne
    have hmapne : (sortPairs (validPairs cd)).map Prod.fst ≠ [] := by
      simpa using hsne
    refine ⟨rfl, ?_, rfl, rfl, ?_⟩
    · rw [buildRec_years, buildRec_emissions, zip_fst_snd,
        buildRec_latest_year, buildRec_latest_emission]
      exact firstEmissionAt_mem (maxZ_mem hmapne)
    · intro v hv
      rw [buildRec_emissions] at hv
      rw [buildRec_min_emission, buildRec_max_emission]
      exact ⟨minQ_le hv, le_maxQ hv⟩

theorem normalized_record_derived_stats_witness :
    usaRecord.latest_year = maxZ usaRecord.years ∧
      (usaRecord.latest_year, usaRecord.latest_emission) ∈
        usaRecord.years.zip usaRecord.emissions ∧
      usaRecord.max_emission = maxQ usaRecord.emissions ∧
      usaRecord.min_emission = minQ usaRecord.emissions ∧
      ∀ v ∈ usaRecord.emissions, usaRecord.min_emission ≤ v ∧ v ≤ usaRecord.max_emission :=
  normalized_record_derived_stats.2 "USA" usaRaw usaRecord (by decide)

/-- C8 (amended): for every record the normalizer retains, `years` and
`emissions` have equal length and are non-empty, and `years` is sorted
non-decreasingly; it is strictly increasing whenever the parsed integer year
keys of the raw record are pairwise distinct (duplicates can only arise from
distinct string keys parsing to the same integer, which the spec declares
undefined behaviour). -/
theorem years_sorted_parallel :
    ∀ (code : String) (cd : RawCountry) (r : ProcessedCountry),
      processCountryData code cd = some r →
        r.years.length = r.emissions.length ∧
        r.years ≠ [] ∧ r.emissions ≠ [] ∧
        r.years.Pairwise (fun a b => a ≤ b) ∧
        (((validPairs cd).map Prod.fst).Nodup → r.years.Pairwise (fun a b => a < b)) := by
  intro code cd r hproc
  obtain ⟨hne, rfl⟩ := processCountryData_eq_some.mp hproc
  have hsne := sortPairs_ne_nil hne
  rw [buildRec_years, buildRec_emissions]
  have hle : ((sortPairs (validPairs cd)).map Prod.fst).Pairwise (fun a b => a ≤ b) :=
    List.pairwise_map.mpr (sortPairs_sorted (validPairs cd))
  refine ⟨by simp, by simpa using hsne, by simpa using hsne, hle, ?_⟩
  intro hnd
  have hperm := (sortPairs_perm (validPairs cd)).map Prod.fst
  have hnd2 : ((sortPairs (validPairs cd)).map Prod.fst).Nodup := hperm.nodup_iff.mpr hnd
  exact (hle.and hnd2).imp fun hab => lt_of_le_of_ne hab.1 hab.2

theorem years_sorted_parallel_witness :
    usaRecord.years.Pairwise (fun a b => a < b) :=
  (years_sorted_parallel "USA" usaRaw usaRecord (by decide)).2.2.2.2 (by decide)

/-- C5: for any region record of the normalized table and any requested year,
the projector uses the value paired with that year when the year occurs in the
region's `years`, and otherwise falls back to the region's `latest_emission` —
never a missing or zero value — so any year outside the recorded range yields
the latest value. -/
theorem projection_year_fallback :
    ∀ (code : String) (cd : RawCountry) (r : ProcessedCountry) (y : ℤ),
      processCountryData code cd = some r →
        (y ∉ r.years → frameValue r y = r.latest_emission) ∧
        (y ∈ r.years → (y, frameValue r y) ∈ r.years.zip r.emissions) := by
  intro code cd r y hproc
  have hlen : r.years.length = r.emissions.length := by
    obtain ⟨hne, rfl⟩ := processCountryData_eq_some.mp hproc
    rw [buildRec_years, buildRec_emissions]
    simp
  constructor
  · intro hy
    unfold frameValue
    rw [if_neg hy]
  · intro hy
    unfold frameValue
    rw [if_pos hy]
    have hidx : r.years.indexOf y < r.years.length := List.indexOf_lt_length.mpr hy
    have hidx2 : r.years.indexOf y < r.emissions.length := by omega
    have hzlen : r.years.indexOf y < (r.years.zip r.emissions).length := by
      rw [List.length_zip]; omega
    have hval : r.emissions.getD (r.years.indexOf y) 0 =
        r.emissions.get ⟨r.years.indexOf y, hidx2⟩ := by
      simp [List.getD, List.getElem?_eq_getElem hidx2, List.get_eq_getElem]
    have hpair : (r.years.zip r.emissions).get ⟨r.years.indexOf y, hzlen⟩ =
        (y, r.emissions.get ⟨r.years.indexOf y, hidx2⟩) := by
      simp only [List.get_eq_getElem, List.getElem_zip, Prod.mk.injEq]
      exact ⟨List.getElem_indexOf hidx, trivial⟩
    rw [hval, ← hpair]
    exact List.get_mem _ _ _

theorem projection_year_fallback_witness :
    frameValue usaRecord 2025 = usaRecord.latest_emission ∧
      ((2018 : ℤ), frameValue usaRecord 2018) ∈ usaRecord.years.zip usaRecord.emissions :=
  ⟨(projection_year_fallback "USA" usaRaw usaRecord 2025 (by decide)).1 (by decide),
   (projection_year_fallback "USA" usaRaw usaRecord 2018 (by decide)).2 (by decide)⟩

lemma buildRec_trend (code : String) (cd : RawCountry) (pairs : List (ℤ × ℚ)) :
    (buildRec code cd pairs).trend =
      (if 1 < ((sortPairs pairs).filter fun p =>
            decide (maxZ ((sortPairs pairs).map Prod.fst) - 5 ≤ p.1)).length then
        if (((sortPairs pairs).filter fun p =>
              decide (maxZ ((sortPairs pairs).map Prod.fst) - 5 ≤ p.1)).getLastD (0, 0)).2 >
            (((sortPairs pairs).filter fun p =>
              decide (maxZ ((sortPairs pairs).map Prod.fst) - 5 ≤ p.1)).headD (0, 0)).2
          then "increasing" else "decreasing"
      else "stable") := rfl

lemma recent_getLastD_fst (pairs : List (ℤ × ℚ)) (hne : pairs ≠ []) :
    (((sortPairs pairs).filter fun p =>
        decide (maxZ ((sortPairs pairs).map Prod.fst) - 5 ≤ p.1)).getLastD (0, 0)).1 =
      maxZ ((sortPairs pairs).map Prod.fst) := by
  have hsne : sortPairs pairs ≠ [] := sortPairs_ne_nil hne
  have hmapne : (sortPairs pairs).map Prod.fst ≠ [] := by simpa using hsne
  rcases List.mem_map.mp (maxZ_mem hmapne) with ⟨p0, hp0, hfst⟩
  have hp0r : p0 ∈ (sortPairs pairs).filter fun p =>
      decide (maxZ ((sortPairs pairs).map Prod.fst) - 5 ≤ p.1) := by
    refine List.mem_filter.mpr ⟨hp0, ?_⟩
    simp only [decide_eq_true_eq]
    rw [hfst]
    omega
  have hrne := List.ne_nil_of_mem hp0r
  have hlast := getLastD_mem _ ((0 : ℤ), (0 : ℚ)) hrne
  have hlasts := List.mem_of_mem_filter hlast
  have hub := le_maxZ (List.mem_map_of_mem Prod.fst hlasts)
  have hpw := (sortPairs_sorted pairs).filter
    (fun p => decide (maxZ ((sortPairs pairs).map Prod.fst) - 5 ≤ p.1))
  have hlb := byYear_getLastD _ ((0 : ℤ), (0 : ℚ)) p0 hpw hp0r
  rw [hfst] at hlb
  exact le_antisymm hub hlb

/-- C2: the trend of every retained record is computed over the window of
points with `year ≥ latest_year - 5`: the window is sorted by year, its last
point is the point at `latest_year`, and the trend is `stable` when the window
has fewer than 2 points, `increasing` when the value at the window's last
point (the latest year) strictly exceeds the value at its first (earliest)
point, and `decreasing` otherwise. -/
theorem trend_window_classification :
    ∀ (code : String) (cd : RawCountry) (r : ProcessedCountry),
      processCountryData code cd = some r →
        ((r.years.zip r.emissions).filter fun p =>
            decide (r.latest_year - 5 ≤ p.1)).Pairwise byYear ∧
        ((((r.years.zip r.emissions).filter fun p =>
            decide (r.latest_year - 5 ≤ p.1)).getLastD (0, 0)).1 = r.latest_year) ∧
        r.trend =
          (if ((r.years.zip r.emissions).filter fun p =>
                decide (r.latest_year - 5 ≤ p.1)).length < 2 then "stable"
           else if (((r.years.zip r.emissions).filter fun p =>
                decide (r.latest_year - 5 ≤ p.1)).getLastD (0, 0)).2 >
              (((r.years.zip r.emissions).filter fun p =>
                decide (r.latest_year - 5 ≤ p.1)).headD (0, 0)).2
           then "increasing" else "decreasing") := by
  intro code cd r hproc
  obtain ⟨hne, rfl⟩ := processCountryData_eq_some.mp hproc
  rw [buildRec_years, buildRec_emissions, zip_fst_snd, buildRec_latest_year, buildRec_trend]
  refine ⟨(sortPairs_sorted _).filter _, recent_getLastD_fst _ hne, ?_⟩
  by_cases hlen : ((sortPairs (validPairs cd)).filter fun p =>
      decide (maxZ ((sortPairs (validPairs cd)).map Prod.fst) - 5 ≤ p.1)).length < 2
  · rw [if_neg (by omega), if_pos hlen]
  · rw [if_pos (by omega), if_neg hlen]

theorem trend_window_classification_witness :
    ((usaRecord.years.zip usaRecord.emissions).filter fun p =>
        decide (usaRecord.latest_year - 5 ≤ p.1)).Pairwise byYear ∧
      ((((usaRecord.years.zip usaRecord.emissions).filter fun p =>
          decide (usaRecord.latest_year - 5 ≤ p.1)).getLastD (0, 0)).1 =
        usaRecord.latest_year) ∧
      usaRecord.trend =
        (if ((usaRecord.years.zip usaRecord.emissions).filter fun p =>
              decide (usaRecord.latest_year - 5 ≤ p.1)).length < 2 then "stable"
         else if (((usaRecord.years.zip usaRecord.emissions).filter fun p =>
              decide (usaRecord.latest_year - 5 ≤ p.1)).getLastD (0, 0)).2 >
            (((usaRecord.years.zip usaRecord.emissions).filter fun p =>
              decide (usaRecord.latest_year - 5 ≤ p.1)).headD (0, 0)).2
         then "increasing" else "decreasing") :=
  trend_window_classification "USA" usaRaw usaRecord (by decide)

/-- C1 (counterexample): a record whose trend window has two points with equal
endpoint values gets trend `"decreasing"` from the normalizer, not `"stable"`
as the claim states: the strict comparison's else-branch is `"decreasing"`. -/
theorem equal_endpoints_trend_counterexample :
    processCountryData "EQL" eqRaw = some eqRecord ∧
      2 ≤ ((eqRecord.years.zip eqRecord.emissions).filter fun p =>
          decide (eqRecord.latest_year - 5 ≤ p.1)).length ∧
      (((eqRecord.years.zip eqRecord.emissions).filter fun p =>
          decide (eqRecord.latest_year - 5 ≤ p.1)).headD (0, 0)).2 =
        (((eqRecord.years.zip eqRecord.emissions).filter fun p =>
          decide (eqRecord.latest_year - 5 ≤ p.1)).getLastD (0, 0)).2 ∧
      eqRecord.trend ≠ "stable" := by decide

/-- C1 (amended): for every retained record whose trend window holds at least
2 points and whose window-start value equals the value at the window's last
point (the latest year), the normalizer assigns trend `"decreasing"` — equal
endpoints fall into the else-branch of the strict comparison; `"stable"` is
assigned only when the window has fewer than 2 points. -/
theorem trend_equal_endpoints_decreasing :
    ∀ (code : String) (cd : RawCountry) (r : ProcessedCountry),
      processCountryData code cd = some r →
        2 ≤ ((r.years.zip r.emissions).filter fun p =>
            decide (r.latest_year - 5 ≤ p.1)).length →
        (((r.years.zip r.emissions).filter fun p =>
            decide (r.latest_year - 5 ≤ p.1)).headD (0, 0)).2 =
          (((r.years.zip r.emissions).filter fun p =>
            decide (r.latest_year - 5 ≤ p.1)).getLastD (0, 0)).2 →
        r.trend = "decreasing" := by
  intro code cd r hproc hlen heq
  obtain ⟨hne, rfl⟩ := processCountryData_eq_some.mp hproc
  rw [buildRec_years, buildRec_emissions, zip_fst_snd, buildRec_latest_year] at hlen heq
  rw [buildRec_trend, if_pos (by omega),
    if_neg (by intro hlt; rw [heq] at hlt; exact lt_irrefl _ hlt)]

theorem trend_equal_endpoints_decreasing_witness :
    eqRecord.trend = "decreasing" :=
  trend_equal_endpoints_decreasing "EQL" eqRaw eqRecord (by decide) (by decide) (by decide)

/-- C3 (counterexample): on a one-region frame with value 80 and no caller
override, the resolved colour-domain minimum is 0, not
`max(0, 5th percentile) = 80` as the claim states: the percentiles collapse,
`zmax ≤ zmin` triggers, and the minimum is reset to 0. -/
theorem color_domain_default_counterexample :
    (createGlobe usaTable 2020 (some 2020) none none).map RenderFrame.zmin = some 0 ∧
      defaultZmin (frameValues usaTable 2020) = 80 ∧ (0 : ℚ) ≠ 80 := by decide

/-- C3 (amended): for every non-empty frame with no caller override, the
resolved maximum is the 95th percentile of the frame's values (or the frame's
true maximum when that percentile is non-positive, further replaced by the
table's largest latest value — or 1.0 — when even that is non-positive), and
the resolved minimum is `max(0, 5th percentile)` unless the resolved maximum
is at or below it, in which case the minimum is reset to 0. -/
theorem color_domain_default_resolution :
    ∀ (table : List (String × ProcessedCountry)) (currentYear : ℤ) (year? : Option ℤ)
      (rotation? : Option (ℚ × ℚ)) (f : RenderFrame),
      createGlobe table currentYear year? rotation? none = some f →
        f.zmax = fixZmax (defaultZmax (frameValues table (year?.getD currentYear)))
            (tableMaxEmission table) ∧
        f.zmin = (if f.zmax ≤ defaultZmin (frameValues table (year?.getD currentYear)) then 0
            else defaultZmin (frameValues table (year?.getD currentYear))) := by
  intro table currentYear year? rotation? f hcg
  cases table with
  | nil => cases hcg
  | cons a t =>
    simp only [createGlobe] at hcg
    injection hcg with h
    subst h
    exact ⟨rfl, rfl⟩

theorem color_domain_default_resolution_witness :
    usaFrame.zmax = fixZmax (defaultZmax (frameValues usaTable ((some 2020).getD 2020)))
        (tableMaxEmission usaTable) ∧
      usaFrame.zmin =
        (if usaFrame.zmax ≤ defaultZmin (frameValues usaTable ((some 2020).getD 2020)) then 0
         else defaultZmin (frameValues usaTable ((some 2020).getD 2020))) :=
  color_domain_default_resolution usaTable 2020 (some 2020) none usaFrame (by decide)

/-- C4: for every frame — caller overrides included — the resolved maximum is
the override (when given, else the computed default) repaired by the
non-positive-`zmax` rule, and the resolved minimum is the override (when
given, else the computed default) reset to 0 whenever the resolved maximum
ends at or below it: overrides replace the corresponding computed value and
the degenerate-scale correction still applies afterwards. -/
theorem color_domain_override_degenerate_reset :
    ∀ (table : List (String × ProcessedCountry)) (currentYear : ℤ) (year? : Option ℤ)
      (rotation? : Option (ℚ × ℚ)) (colorRange : Option (Option ℚ × Option ℚ))
      (f : RenderFrame),
      createGlobe table currentYear year? rotation? colorRange = some f →
        f.zmax = fixZmax ((ovMax colorRange).getD
            (defaultZmax (frameValues table (year?.getD currentYear))))
            (tableMaxEmission table) ∧
        f.zmin = (if f.zmax ≤ (ovMin colorRange).getD
              (defaultZmin (frameValues table (year?.getD currentYear))) then 0
            else (ovMin colorRange).getD
              (defaultZmin (frameValues table (year?.getD currentYear)))) := by
  intro table currentYear year? rotation? colorRange f hcg
  cases table with
  | nil => cases hcg
  | cons a t =>
    simp only [createGlobe] at hcg
    injection hcg with h
    subst h
    cases colorRange with
    | none => exact ⟨rfl, rfl⟩
    | some cr => exact ⟨rfl, rfl⟩

theorem color_domain_override_degenerate_reset_witness :
    overrideFrame.zmax = fixZmax ((ovMax (some (some 3, some 2))).getD
        (defaultZmax (frameValues usaTable ((some 2020).getD 2020))))
        (tableMaxEmission usaTable) ∧
      overrideFrame.zmin =
        (if overrideFrame.zmax ≤ (ovMin (some (some 3, some 2))).getD
              (defaultZmin (frameValues usaTable ((some 2020).getD 2020))) then 0
         else (ovMin (some (some 3, some 2))).getD
              (defaultZmin (frameValues usaTable ((some 2020).getD 2020)))) :=
  color_domain_override_degenerate_reset usaTable 2020 (some 2020) none
    (some (some 3, some 2)) overrideFrame (by decide)

/-- C8 (counterexample): the raw keys `"2018"` and `" 2018"` are distinct
JSON dictionary keys that both parse to the year 2018, so the normalizer
retains a record whose `years` list is `[2018, 2018]` — sorted, but not
strictly increasing. -/
theorem years_strictly_increasing_counterexample :
    (processCountryData "DUP" dupRaw).map ProcessedCountry.years = some [2018, 2018] ∧
      ¬ List.Pairwise (fun a b : ℤ => a < b) [(2018 : ℤ), 2018] := by decide
